import Mathlib

/-!
Shallow embedding of `config/config.go` from sapuri/octocov.

The Go package resolves, validates and normalizes the configuration of a
coverage-reporting tool.  Pure functions are translated directly; methods
that mutate the receiver (`Build`, `BuildDatastoreConfig`, `Load`) are
translated into explicit state passing (they return the updated `Config`).
Process-global inputs (environment, filesystem, the external expression
evaluator and the YAML parser) are passed in as explicit snapshots or
oracles, mirroring exactly how the Go code consumes them.

Floating point values (`float64` in Go) are modelled as `ℚ`: the code only
compares against constants and does exact arithmetic on parsed decimal
literals, so rational semantics are faithful on all decimal inputs.
-/

namespace Octocov

/-! ## Data model (`type Config struct` and friends) -/

structure ConfigCoverageBadge where
  Path : String
deriving DecidableEq, Repr

structure ConfigCoverage where
  Path : String
  Badge : ConfigCoverageBadge
  Acceptable : String
deriving DecidableEq, Repr

structure ConfigCodeToTestRatioBadge where
  Path : String
deriving DecidableEq, Repr

/-- The `Code`/`Test` fields are Go slices: `none` models a `nil` slice, `some []`
an allocated empty slice (the Go code distinguishes the two in `Build`). -/
structure ConfigCodeToTestRatio where
  Code : Option (List String)
  Test : Option (List String)
  Badge : ConfigCodeToTestRatioBadge
deriving DecidableEq, Repr

structure ConfigDatastoreGithub where
  Repository : String
  Branch : String
  Path : String
deriving DecidableEq, Repr

structure ConfigDatastore where
  If : String
  Github : Option ConfigDatastoreGithub
deriving DecidableEq, Repr

structure ConfigCentral where
  Enable : Bool
  Reports : String
  Badges : String
  Root : String
deriving DecidableEq, Repr

/-- The root `Config`.  `Coverage` is a pointer in Go but is always
allocated by `New()` and never nil on any path the package exercises, so it
is embedded as a plain field.  `wd` is the working directory and `path` the
resolved config-file path (empty = no file loaded), both unexported. -/
structure Config where
  Repository : String
  Coverage : ConfigCoverage
  CodeToTestRatio : Option ConfigCodeToTestRatio
  Datastore : Option ConfigDatastore
  Central : Option ConfigCentral
  wd : String
  path : String
deriving DecidableEq, Repr

def defaultBranch : String := "main"
def defaultReportsDir : String := "reports"

def green : String := "#97CA00"
def yellowgreen : String := "#A4A61D"
def yellow : String := "#DFB317"
def orange : String := "#FE7D37"
def red : String := "#E05D44"

def DefaultConfigFilePaths : List String := [".octocov.yml", "octocov.yml"]

/-- Embeds `func (c *Config) Loaded() bool`. -/
def Config.Loaded (c : Config) : Bool := c.path ≠ ""

/-! ## ThresholdGrader (`CoverageColor`, `CodeToTestRatioColor`) -/

/-- Embeds `func (c *Config) CoverageColor(cover float64) string`. -/
def Config.CoverageColor (_ : Config) (cover : ℚ) : String :=
  if 80 ≤ cover then green
  else if 60 ≤ cover then yellowgreen
  else if 40 ≤ cover then yellow
  else if 20 ≤ cover then orange
  else red

/-- Embeds `func (c *Config) CodeToTestRatioColor(ratio float64) string`. -/
def Config.CodeToTestRatioColor (_ : Config) (ratio : ℚ) : String :=
  if 1.2 ≤ ratio then green
  else if 1 ≤ ratio then yellowgreen
  else if 0.8 ≤ ratio then yellow
  else if 0.6 ≤ ratio then orange
  else red

/-! ## AcceptanceChecker (`Accepptable`, sic) -/

/-- Digit list to natural number, most significant first. -/
def natOfDigits (ds : List Char) : Nat :=
  ds.foldl (fun a c => a * 10 + (c.toNat - '0'.toNat)) 0

/-- Models `strconv.ParseFloat` on the plain decimal forms this
configuration format uses: optional sign, digits, optional fractional
part (at least one digit overall).  Exponent, hex, Inf and NaN forms of
the Go standard library are outside the modelled subset. -/
def parseFloat (s : String) : Option ℚ :=
  let cs := s.toList
  let sc : ℚ × List Char :=
    match cs with
    | '+' :: t => (1, t)
    | '-' :: t => (-1, t)
    | _ => (1, cs)
  let ip := sc.2.takeWhile Char.isDigit
  let r2 := sc.2.dropWhile Char.isDigit
  match r2 with
  | [] => if ip.isEmpty then none else some (sc.1 * natOfDigits ip)
  | '.' :: fp =>
      if fp.all Char.isDigit ∧ (¬ ip.isEmpty ∨ ¬ fp.isEmpty) then
        some (sc.1 * ((natOfDigits ip : ℚ) + (natOfDigits fp : ℚ) / (10 ^ fp.length)))
      else none
  | _ => none

/-- Embeds `strings.TrimSuffix(s, "%")`: drop one trailing percent sign,
phrased at the character-list level (for a one-character suffix, having
the suffix is having that last character). -/
def trimPercent (s : String) : String :=
  if s.toList.getLast? = some '%' then String.mk s.toList.dropLast else s

/-- Round-half-to-even, the rounding that the Go `%.1f` verb applies. -/
def roundHalfEven (q : ℚ) : Int :=
  let f := Int.floor q
  let r := q - f
  if r < 1 / 2 then f
  else if 1 / 2 < r then f + 1
  else if f % 2 = 0 then f else f + 1

/-- Render a rational the way `%.1f` renders the value (one decimal). -/
def fmt1 (q : ℚ) : String :=
  let n := roundHalfEven (q * 10)
  let sgn := if n < 0 then "-" else ""
  let m := n.natAbs
  sgn ++ toString (m / 10) ++ "." ++ toString (m % 10)

/-- The message of `fmt.Errorf("code coverage is %.1f%%, which is below the accepted %.1f%%", ...)`. -/
def belowMsg (actual acceptable : ℚ) : String :=
  "code coverage is " ++ fmt1 actual ++ "%, which is below the accepted " ++ fmt1 acceptable ++ "%"

/-- The two error shapes `Accepptable` can return: the `strconv` parse
error for the given input, or the formatted below-threshold message. -/
inductive AccErr
  | parseErr (input : String)
  | coverageBelow (msg : String)
deriving DecidableEq, Repr

/-- Embeds `func (c *Config) Accepptable(r *report.Report) error` (sic).
The report collaborator is external; it enters only through
`r.CoveragePercent()`, passed here as `coveragePercent`.  `none` models a
nil error. -/
def Config.Accepptable (c : Config) (coveragePercent : ℚ) : Option AccErr :=
  if c.Coverage.Acceptable = "" then none
  else
    match parseFloat (trimPercent c.Coverage.Acceptable) with
    | none => some (.parseErr (trimPercent c.Coverage.Acceptable))
    | some a =>
        if coveragePercent < a then some (.coverageBelow (belowMsg coveragePercent a))
        else none

/-! ## ConditionEvaluator (`DatastoreConfigReady`) -/

/-- Outcome of the external `expr.Eval` collaborator on a wrapped
expression `(<cond>) == true`: such an expression evaluates, when it
evaluates at all, to a boolean (`==` in the expression language yields a
boolean), so the outcome of the library call is a boolean or an error. -/
inductive EvalResult
  | ok (b : Bool)
  | err (msg : String)
deriving DecidableEq, Repr

/-- Embeds `fmt.Sprintf("(%s) == true", cond)`. -/
def wrapCond (cond : String) : String := "(" ++ cond ++ ") == true"

/-- The diagnostic printed when the condition evaluates to false. -/
def skipMsg (cond : String) : String :=
  "Skip storing the report: the condition in the `if` section is not met (" ++ cond ++ ")"

/-- Embeds `func (c *Config) DatastoreConfigReady() bool`.
The boolean decision is the first component; the second collects what the
function writes to `os.Stderr` (in order).  The context variables (clock,
decoded GitHub event, environment snapshot) influence the result only
through the external evaluator, so the evaluator enters as an oracle
`evalExpr` applied to the wrapped expression string. -/
def Config.DatastoreConfigReady (c : Config) (evalExpr : String → EvalResult) :
    Bool × List String :=
  match c.Datastore with
  | none => (false, [])
  | some ds =>
      if ds.If = "" then (true, [])
      else
        match evalExpr (wrapCond ds.If) with
        | .err m => (false, [m])
        | .ok false => (false, [skipMsg ds.If])
        | .ok true => (true, [])

/-! ## DatastoreValidator (`BuildDatastoreConfig`) -/

/-- Embeds `strings.Count(s, "/")` for the one-character pattern. -/
def countSlash (s : String) : Nat := s.toList.count '/'

/-- Embeds `func (c *Config) BuildDatastoreConfig() error`.
The method mutates the receiver (defaulting branch and path) and returns
an error; here it returns the updated config together with the error
(`none` = nil error).  The Go code dereferences `c.Datastore` without a
nil check, so a nil `Datastore` is a panic: that case is `none`. -/
def Config.BuildDatastoreConfig (c : Config) : Option (Config × Option String) :=
  match c.Datastore with
  | none => none
  | some ds =>
      match ds.Github with
      | none => some (c, some "datastore.github not set")
      | some g =>
          let branch := if g.Branch = "" then defaultBranch else g.Branch
          let gpath :=
            if g.Path = "" ∧ c.Repository ≠ "" then
              defaultReportsDir ++ "/" ++ c.Repository ++ "/report.json"
            else g.Path
          let g' : ConfigDatastoreGithub := { g with Branch := branch, Path := gpath }
          let c' : Config := { c with Datastore := some { ds with Github := some g' } }
          if g.Repository = "" then
            some (c', some "datastore.github.repository not set")
          else if countSlash g.Repository ≠ 1 then
            some (c', some "datastore.github.repository should be \x27owner/repo\x27")
          else if branch = "" then
            some (c', some "datastore.github.branch not set")
          else if gpath = "" then
            some (c', some "datastore.github.path not set")
          else
            some (c', none)

/-! ## PathResolver / Load -/

/-- Filesystem snapshot for `os.Stat`: (path, isDir) entries; a path that
is absent stats with an error. -/
abbrev FS := List (String × Bool)

/-- Models `os.Stat(p)` succeeding (`err == nil`) with `!f.IsDir()`. -/
def statIsFile (fs : FS) (p : String) : Bool :=
  match fs.find? (fun e => e.1 == p) with
  | some e => !e.2
  | none => false

/-- Models `filepath.Join` on already-clean path components. -/
def joinPath (a b : String) : String := if a = "" then b else a ++ "/" ++ b

def lastIdxOf (c : Char) : List Char → Option Nat
  | [] => none
  | x :: t =>
      match lastIdxOf c t with
      | some i => some (i + 1)
      | none => if x = c then some 0 else none

/-- Models `filepath.Dir` on clean paths: everything before the last
separator, `.` when there is none, `/` for a file directly under root. -/
def dirPath (p : String) : String :=
  match lastIdxOf '/' p.toList with
  | none => "."
  | some 0 => "/"
  | some i => String.mk (p.toList.take i)

/-- The candidate-scanning loop of `Load` when no explicit path is given:
the resolved relative path (`""` when nothing matched) or the duplicate
error naming both matches. -/
def loadResolve (fs : FS) (wd : String) : Except String String :=
  DefaultConfigFilePaths.foldl
    (fun acc p =>
      match acc with
      | .error e => .error e
      | .ok path =>
          if statIsFile fs (joinPath wd p) then
            if path ≠ "" then
              .error ("duplicate config file [" ++ path ++ ", " ++ p ++ "]")
            else .ok p
          else .ok path)
    (.ok "")

/-- Embeds `func (c *Config) Load(path string) error`.
`readParse` is the oracle for `ioutil.ReadFile` + `yaml.Unmarshal`: given
the resolved file path (already clean, so `filepath.Clean` is the
identity on it) and the config being unmarshalled into, it returns the
read or parse error, or the updated config. -/
def Config.Load (c : Config) (fs : FS)
    (readParse : String → Config → Except String Config) (path : String) :
    Except String Config :=
  match (if path = "" then loadResolve fs c.wd else .ok path) with
  | .error e => .error e
  | .ok path =>
      if path = "" then .ok { c with Coverage := { c.Coverage with Path := c.wd } }
      else
        let cpath := joinPath c.wd path
        let c1 : Config := { c with path := cpath }
        match readParse cpath c1 with
        | .error e => .error e
        | .ok c2 =>
            if c2.Coverage.Path = "" then
              .ok { c2 with Coverage := { c2.Coverage with Path := dirPath cpath } }
            else .ok c2

/-! ## Environment expansion and `Build` -/

/-- Environment snapshot: ordered (name, value) pairs. -/
abbrev Env := List (String × String)

/-- Embeds `os.Getenv`: empty string when the variable is unset. -/
def getenv (env : Env) (n : String) : String :=
  match env.find? (fun p => p.1 == n) with
  | some p => p.2
  | none => ""

/-- Embeds `isShellSpecialVar` from the Go standard `os` package. -/
def isShellSpecialVar (c : Char) : Bool :=
  c ∈ ['*', '#', '$', '@', '!', '?', '0', '1', '2', '3', '4', '5', '6', '7', '8', '9']

/-- Embeds `isAlphaNum` from the Go standard `os` package. -/
def isAlphaNum (c : Char) : Bool :=
  c = '_' || ('0' ≤ c && c ≤ '9') || ('a' ≤ c && c ≤ 'z') || ('A' ≤ c && c ≤ 'Z')

/-- The brace-scanning arm of `getShellName`, applied to the characters
after the opening `{`. -/
def braceName (t : List Char) : List Char × Nat :=
  match t.findIdx? (fun c => c == '}') with
  | some 0 => ([], 2)
  | some i => (t.take i, i + 2)
  | none => ([], 1)

/-- Embeds `getShellName` from the Go standard `os` package: the variable name starting a
string, and how many characters it consumes. -/
def getShellName (s : List Char) : List Char × Nat :=
  match s with
  | [] => ([], 0)
  | c :: t =>
      if c = '{' then
        match t with
        | c1 :: '}' :: _ => if isShellSpecialVar c1 then ([c1], 3) else braceName t
        | _ => braceName t
      else if isShellSpecialVar c then ([c], 1)
      else ((c :: t).takeWhile isAlphaNum, ((c :: t).takeWhile isAlphaNum).length)

/-- The scanning loop of the Go function `os.Expand` with the `os.Getenv`
mapping: a `$` followed by a name is replaced by the value of the variable; `${}` or
an unterminated `${` eats characters; a `$` not followed by a name (or at
the end of the string) is left untouched. -/
def expand (env : Env) : List Char → List Char
  | [] => []
  | c :: rest =>
      if c = '$' then
        let nw := getShellName rest
        if nw.1.isEmpty then
          if nw.2 = 0 then '$' :: expand env rest
          else expand env (rest.drop nw.2)
        else (getenv env (String.mk nw.1)).toList ++ expand env (rest.drop nw.2)
      else c :: expand env rest
termination_by l => l.length
decreasing_by
  all_goals simp [List.length_drop]
  all_goals omega

/-- Embeds `os.ExpandEnv`. -/
def ExpandEnv (env : Env) (s : String) : String := String.mk (expand env s.toList)

/-- Embeds `func (c *Config) Build()`.  The process environment is passed as an
explicit snapshot `env`; the method mutates the receiver, so here it
returns the updated config. -/
def Config.Build (env : Env) (c : Config) : Config :=
  let repo0 := ExpandEnv env c.Repository
  let repo := if repo0 = "" then getenv env "GITHUB_REPOSITORY" else repo0
  let ds := c.Datastore.map fun d =>
    { d with Github := d.Github.map fun g =>
        { g with
            Repository := ExpandEnv env g.Repository,
            Branch := ExpandEnv env g.Branch,
            Path := ExpandEnv env g.Path } }
  let cov := { c.Coverage with Badge := { Path := ExpandEnv env c.Coverage.Badge.Path } }
  let rat := c.CodeToTestRatio.map fun r =>
    { r with Code := some (r.Code.getD []), Test := some (r.Test.getD []) }
  let cen := c.Central.map fun z =>
    { z with
        Root := ExpandEnv env z.Root,
        Reports := ExpandEnv env z.Reports,
        Badges := ExpandEnv env z.Badges }
  { c with Repository := repo, Coverage := cov, CodeToTestRatio := rat,
           Datastore := ds, Central := cen }

/-! ## Concrete instances used in the closed corollaries -/

def cfg0 : Config := ⟨"", ⟨"", ⟨""⟩, ""⟩, none, none, none, "", ""⟩

def cfg75 : Config := ⟨"", ⟨"", ⟨""⟩, "75%"⟩, none, none, none, "", ""⟩

def cfgWd : Config := ⟨"", ⟨"", ⟨""⟩, ""⟩, none, none, none, "wd", ""⟩

def fsDup : FS := [("wd/.octocov.yml", false), ("wd/octocov.yml", false)]

def rpId : String → Config → Except String Config := fun _ cc => .ok cc

def cfgIf : Config := ⟨"", ⟨"", ⟨""⟩, ""⟩, none, some ⟨"1 == 2", none⟩, none, "", ""⟩

def cfgIfEmpty : Config := ⟨"", ⟨"", ⟨""⟩, ""⟩, none, some ⟨"", none⟩, none, "", ""⟩

/-- A config with root repository `rootRepo` and a datastore github
section whose repository is `ghRepo` (branch and path empty). -/
def mkDsCfg (rootRepo ghRepo : String) : Config :=
  ⟨rootRepo, ⟨"", ⟨""⟩, ""⟩, none, some ⟨"", some ⟨ghRepo, "", ""⟩⟩, none, "", ""⟩

def envCE : Env := [("FOO", "$BAR"), ("BAR", "x")]

def cfgCE : Config := ⟨"$FOO", ⟨"", ⟨""⟩, ""⟩, none, none, none, "", ""⟩

def envW : Env := [("GITHUB_REPOSITORY", "acme/widgets")]

/-- The receiver state after the defaulting steps of
`BuildDatastoreConfig` (lines that set branch to the default and path to
the derived report path when the root repository is non-empty). -/
def Config.withDatastoreDefaults (c : Config) (ds : ConfigDatastore)
    (g : ConfigDatastoreGithub) : Config :=
  let branch := if g.Branch = "" then defaultBranch else g.Branch
  let gpath :=
    if g.Path = "" ∧ c.Repository ≠ "" then
      defaultReportsDir ++ "/" ++ c.Repository ++ "/report.json"
    else g.Path
  let g' : ConfigDatastoreGithub := { g with Branch := branch, Path := gpath }
  { c with Datastore := some { ds with Github := some g' } }

/-! ## Unfolding and idempotence lemmas for environment expansion -/

lemma braceName_pos (t : List Char) : 1 ≤ (braceName t).2 := by
  unfold braceName
  rcases h : t.findIdx? (fun c => c == '}') with _ | i
  · simp
  · cases i <;> simp

lemma getShellName_brace_pos (t : List Char) : 1 ≤ (getShellName ('{' :: t)).2 := by
  simp only [getShellName, reduceIte]
  split
  · split
    · simp
    · exact braceName_pos _
  · exact braceName_pos _

lemma getShellName_special {c : Char} (hb : c ≠ '{') (hs : isShellSpecialVar c)
    (t : List Char) : getShellName (c :: t) = ([c], 1) := by
  simp [getShellName, hb, hs]

lemma getShellName_scan {c : Char} (hb : c ≠ '{') (hs : ¬ isShellSpecialVar c)
    (t : List Char) :
    getShellName (c :: t) =
      ((c :: t).takeWhile isAlphaNum, ((c :: t).takeWhile isAlphaNum).length) := by
  simp [getShellName, hb, hs]

/-- A head character that yields no name and consumes nothing does so
independently of the tail. -/
lemma getShellName_zero {h : Char} {t : List Char}
    (hz : getShellName (h :: t) = ([], 0)) (t' : List Char) :
    getShellName (h :: t') = ([], 0) := by
  by_cases hb : h = '{'
  · exfalso
    subst hb
    have hp := getShellName_brace_pos t
    rw [hz] at hp
    simp at hp
  · by_cases hs : isShellSpecialVar h
    · rw [getShellName_special hb hs] at hz
      simp at hz
    · rw [getShellName_scan hb hs] at hz
      have hna : ¬ isAlphaNum h := by
        intro ha
        have := congrArg Prod.fst hz
        simp [List.takeWhile_cons, ha] at this
      rw [getShellName_scan hb hs]
      simp [List.takeWhile_cons, hna]

lemma getShellName_zero_head {h : Char} {t : List Char}
    (hz : getShellName (h :: t) = ([], 0)) : h ≠ '$' := by
  rintro rfl
  rw [getShellName_special (by decide) (by decide)] at hz
  simp at hz

lemma expand_nil (env : Env) : expand env [] = [] := by
  simp [expand]

lemma expand_cons_ne (env : Env) {c : Char} (hc : c ≠ '$') (l : List Char) :
    expand env (c :: l) = c :: expand env l := by
  rw [expand]
  simp [hc]

lemma expand_dollar (env : Env) (l : List Char) :
    expand env ('$' :: l) =
      if (getShellName l).1.isEmpty then
        if (getShellName l).2 = 0 then '$' :: expand env l
        else expand env (l.drop (getShellName l).2)
      else
        (getenv env (String.mk (getShellName l).1)).toList ++
          expand env (l.drop (getShellName l).2) := by
  rw [expand]
  simp

lemma expand_dollar_leave (env : Env) {l : List Char}
    (h : getShellName l = ([], 0)) :
    expand env ('$' :: l) = '$' :: expand env l := by
  rw [expand_dollar]
  simp [h]

lemma expand_dollar_eat (env : Env) {l : List Char} {w : Nat}
    (h : getShellName l = ([], w)) (hw : w ≠ 0) :
    expand env ('$' :: l) = expand env (l.drop w) := by
  rw [expand_dollar]
  simp [h, hw]

lemma expand_dollar_name (env : Env) {l nm : List Char} {w : Nat}
    (h : getShellName l = (nm, w)) (hnm : nm ≠ []) :
    expand env ('$' :: l) =
      (getenv env (String.mk nm)).toList ++ expand env (l.drop w) := by
  rw [expand_dollar]
  simp [h, hnm]

lemma expand_append_dollarFree (env : Env) (l : List Char) :
    ∀ v : List Char, '$' ∉ v → expand env (v ++ l) = v ++ expand env l := by
  intro v
  induction v with
  | nil => intro _; simp
  | cons c t ih =>
      intro hv
      have hc : c ≠ '$' := by
        rintro rfl
        exact hv (List.mem_cons_self _ _)
      have ht : '$' ∉ t := fun hm => hv (List.mem_cons_of_mem _ hm)
      simp only [List.cons_append, expand_cons_ne env hc, ih ht]

lemma expand_dollarFree (env : Env) {v : List Char} (hv : '$' ∉ v) :
    expand env v = v := by
  have h := expand_append_dollarFree env [] v hv
  simpa [expand_nil] using h

lemma getenv_dollarFree {env : Env} (HE : ∀ p ∈ env, '$' ∉ p.2.toList)
    (n : String) : '$' ∉ (getenv env n).toList := by
  unfold getenv
  rcases h : env.find? (fun p => p.1 == n) with _ | p <;> rw [h]
  · simp
  · simpa using HE p (List.mem_of_find?_eq_some h)

/-- With an environment whose values contain no dollar sign, one scan of
`os.Expand` is a fixed point of a second scan. -/
lemma expand_idem (env : Env) (HE : ∀ p ∈ env, '$' ∉ p.2.toList) :
    ∀ n (s : List Char), s.length ≤ n →
      expand env (expand env s) = expand env s := by
  intro n
  induction n with
  | zero =>
      intro s hs
      have : s = [] := List.length_eq_zero.mp (Nat.le_zero.mp hs)
      subst this
      simp [expand_nil]
  | succ n ih =>
      intro s hs
      match s with
      | [] => simp [expand_nil]
      | c :: rest =>
          by_cases hc : c = '$'
          · subst hc
            rcases hnw : getShellName rest with ⟨nm, w⟩
            by_cases hnm : nm = []
            · subst hnm
              by_cases hw : w = 0
              · subst hw
                cases rest with
                | nil =>
                    rw [expand_dollar_leave env hnw]
                    simp [expand_nil, expand_dollar_leave env hnw]
                | cons h rest' =>
                    have hh : h ≠ '$' := getShellName_zero_head hnw
                    have hexp : expand env (h :: rest') = h :: expand env rest' :=
                      expand_cons_ne env hh _
                    have hz : getShellName (h :: expand env rest') = ([], 0) :=
                      getShellName_zero hnw _
                    rw [expand_dollar_leave env hnw, hexp, expand_dollar_leave env hz,
                        expand_cons_ne env hh, ih rest' (by simp at hs; omega)]
              · rw [expand_dollar_eat env hnw hw]
                refine ih _ ?_
                have := List.length_drop w rest
                simp at hs
                omega
            · rw [expand_dollar_name env hnw hnm]
              rw [expand_append_dollarFree env _ _ (getenv_dollarFree HE _)]
              congr 1
              refine ih _ ?_
              have := List.length_drop w rest
              simp at hs
              omega
          · rw [expand_cons_ne env hc, expand_cons_ne env hc,
                ih rest (by simp at hs; omega)]

lemma ExpandEnv_idem (env : Env) (HE : ∀ p ∈ env, '$' ∉ p.2.toList)
    (s : String) : ExpandEnv env (ExpandEnv env s) = ExpandEnv env s := by
  unfold ExpandEnv
  exact congrArg String.mk (expand_idem env HE _ s.toList le_rfl)

lemma ExpandEnv_dollarFree (env : Env) {s : String} (hs : '$' ∉ s.toList) :
    ExpandEnv env s = s := by
  unfold ExpandEnv
  rw [expand_dollarFree env hs]
  rfl

lemma ExpandEnv_getenv (env : Env) (HE : ∀ p ∈ env, '$' ∉ p.2.toList)
    (n : String) : ExpandEnv env (getenv env n) = getenv env n :=
  ExpandEnv_dollarFree env (getenv_dollarFree HE n)

/-- Reduction of `BuildDatastoreConfig` once the datastore and github
sections are known to be present. -/
lemma buildDatastoreConfig_eq (c : Config) (ds : ConfigDatastore)
    (g : ConfigDatastoreGithub) (hds : c.Datastore = some ds)
    (hg : ds.Github = some g) :
    c.BuildDatastoreConfig =
      (let branch := if g.Branch = "" then defaultBranch else g.Branch
       let gpath := if g.Path = "" ∧ c.Repository ≠ "" then
           defaultReportsDir ++ "/" ++ c.Repository ++ "/report.json" else g.Path
       let c' : Config := c.withDatastoreDefaults ds g
       if g.Repository = "" then some (c', some "datastore.github.repository not set")
       else if countSlash g.Repository ≠ 1 then
         some (c', some "datastore.github.repository should be \x27owner/repo\x27")
       else if branch = "" then some (c', some "datastore.github.branch not set")
       else if gpath = "" then some (c', some "datastore.github.path not set")
       else some (c', none)) := by
  simp only [Config.BuildDatastoreConfig, Config.withDatastoreDefaults, hds, hg]

/-! ## Claims -/

/-- C1: with a datastore section present and a non-empty gating expression,
`DatastoreConfigReady` always produces a definite boolean decision and
never lets an evaluator failure escape: on any parse or evaluation error
it writes the diagnostic to the error stream and answers `false` (do not
proceed), and on a successful evaluation the decision equals the boolean
the evaluator produced. -/
theorem datastoreConfigReady_soft_fail
    (c : Config) (ds : ConfigDatastore) (evalExpr : String → EvalResult)
    (hds : c.Datastore = some ds) (hif : ds.If ≠ "") :
    (∀ m, evalExpr (wrapCond ds.If) = .err m →
        c.DatastoreConfigReady evalExpr = (false, [m])) ∧
    (∀ b, evalExpr (wrapCond ds.If) = .ok b →
        (c.DatastoreConfigReady evalExpr).1 = b) := by
  constructor
  · intro m hm
    simp [Config.DatastoreConfigReady, hds, hif, hm]
  · intro b hb
    cases b <;> simp [Config.DatastoreConfigReady, hds, hif, hb]

theorem datastoreConfigReady_soft_fail_witness :
    (cfgIf.DatastoreConfigReady (fun _ => .err "boom") = (false, ["boom"])) ∧
    (cfgIf.DatastoreConfigReady (fun _ => .ok true)).1 = true := by
  constructor
  · exact (datastoreConfigReady_soft_fail cfgIf ⟨"1 == 2", none⟩ _ rfl (by decide)).1 "boom" rfl
  · exact (datastoreConfigReady_soft_fail cfgIf ⟨"1 == 2", none⟩ _ rfl (by decide)).2 true rfl

/-- C2: with a datastore section present whose `if` expression is empty,
`DatastoreConfigReady` answers `true` and writes nothing to the error
stream, for every evaluator. -/
theorem datastoreConfigReady_empty_if
    (c : Config) (ds : ConfigDatastore) (evalExpr : String → EvalResult)
    (hds : c.Datastore = some ds) (hif : ds.If = "") :
    c.DatastoreConfigReady evalExpr = (true, []) := by
  simp [Config.DatastoreConfigReady, hds, hif]

theorem datastoreConfigReady_empty_if_witness :
    cfgIfEmpty.DatastoreConfigReady (fun _ => .err "boom") = (true, []) :=
  datastoreConfigReady_empty_if cfgIfEmpty ⟨"", none⟩ _ rfl rfl

/-- C5: `CoverageColor` and `CodeToTestRatioColor` are pure mappings into
five color bands with inclusive lower bounds where the highest matching
band wins: percentages map by 80/60/40/20, ratios by 1.2/1.0/0.8/0.6, and
each exact boundary value lands in the higher band. -/
theorem threshold_color_bands (c : Config) :
    (∀ x : ℚ, 80 ≤ x → c.CoverageColor x = green) ∧
    (∀ x : ℚ, 60 ≤ x → x < 80 → c.CoverageColor x = yellowgreen) ∧
    (∀ x : ℚ, 40 ≤ x → x < 60 → c.CoverageColor x = yellow) ∧
    (∀ x : ℚ, 20 ≤ x → x < 40 → c.CoverageColor x = orange) ∧
    (∀ x : ℚ, x < 20 → c.CoverageColor x = red) ∧
    (∀ x : ℚ, 1.2 ≤ x → c.CodeToTestRatioColor x = green) ∧
    (∀ x : ℚ, 1 ≤ x → x < 1.2 → c.CodeToTestRatioColor x = yellowgreen) ∧
    (∀ x : ℚ, 0.8 ≤ x → x < 1 → c.CodeToTestRatioColor x = yellow) ∧
    (∀ x : ℚ, 0.6 ≤ x → x < 0.8 → c.CodeToTestRatioColor x = orange) ∧
    (∀ x : ℚ, x < 0.6 → c.CodeToTestRatioColor x = red) := by
  refine ⟨?_, ?_, ?_, ?_, ?_, ?_, ?_, ?_, ?_, ?_⟩ <;>
    · intros
      simp only [Config.CoverageColor, Config.CodeToTestRatioColor]
      split_ifs <;> first | rfl | (exfalso; linarith)

theorem threshold_color_bands_witness :
    cfg0.CoverageColor 80 = green ∧ cfg0.CoverageColor 60 = yellowgreen ∧
    cfg0.CoverageColor 40 = yellow ∧ cfg0.CoverageColor 20 = orange ∧
    cfg0.CoverageColor 19 = red ∧
    cfg0.CodeToTestRatioColor 1.2 = green ∧ cfg0.CodeToTestRatioColor 1 = yellowgreen ∧
    cfg0.CodeToTestRatioColor 0.8 = yellow ∧ cfg0.CodeToTestRatioColor 0.6 = orange ∧
    cfg0.CodeToTestRatioColor 0.5 = red := by
  refine ⟨?_, ?_, ?_, ?_, ?_, ?_, ?_, ?_, ?_, ?_⟩
  · exact (threshold_color_bands cfg0).1 80 (by norm_num)
  · exact (threshold_color_bands cfg0).2.1 60 (by norm_num) (by norm_num)
  · exact (threshold_color_bands cfg0).2.2.1 40 (by norm_num) (by norm_num)
  · exact (threshold_color_bands cfg0).2.2.2.1 20 (by norm_num) (by norm_num)
  · exact (threshold_color_bands cfg0).2.2.2.2.1 19 (by norm_num)
  · exact (threshold_color_bands cfg0).2.2.2.2.2.1 1.2 (by norm_num)
  · exact (threshold_color_bands cfg0).2.2.2.2.2.2.1 1 (by norm_num) (by norm_num)
  · exact (threshold_color_bands cfg0).2.2.2.2.2.2.2.1 0.8 (by norm_num) (by norm_num)
  · exact (threshold_color_bands cfg0).2.2.2.2.2.2.2.2.1 0.6 (by norm_num) (by norm_num)
  · exact (threshold_color_bands cfg0).2.2.2.2.2.2.2.2.2 0.5 (by norm_num)

/-- C6: the acceptance check passes unconditionally when the configured
threshold string is empty; otherwise the string with one optional trailing
percent sign stripped is parsed as a float and a parse failure is returned
as the error; a coverage percentage strictly below the parsed threshold
fails with the message stating both values to one decimal place, and a
percentage at or above it passes. -/
theorem accepptable_threshold_check (c : Config) (cov : ℚ) :
    (c.Coverage.Acceptable = "" → c.Accepptable cov = none) ∧
    (c.Coverage.Acceptable ≠ "" →
      parseFloat (trimPercent c.Coverage.Acceptable) = none →
      c.Accepptable cov = some (.parseErr (trimPercent c.Coverage.Acceptable))) ∧
    (∀ a : ℚ, c.Coverage.Acceptable ≠ "" →
      parseFloat (trimPercent c.Coverage.Acceptable) = some a → cov < a →
      c.Accepptable cov = some (.coverageBelow (belowMsg cov a))) ∧
    (∀ a : ℚ, c.Coverage.Acceptable ≠ "" →
      parseFloat (trimPercent c.Coverage.Acceptable) = some a → a ≤ cov →
      c.Accepptable cov = none) := by
  refine ⟨?_, ?_, ?_, ?_⟩
  · intro h
    simp [Config.Accepptable, h]
  · intro h hp
    simp [Config.Accepptable, h, hp]
  · intro a h hp hlt
    simp [Config.Accepptable, h, hp, hlt]
  · intro a h hp hle
    simp [Config.Accepptable, h, hp, if_neg (not_lt.mpr hle)]

theorem accepptable_threshold_check_witness :
    cfg75.Accepptable 70 =
      some (.coverageBelow "code coverage is 70.0%, which is below the accepted 75.0%") ∧
    cfg75.Accepptable 80 = none := by
  have hp : parseFloat (trimPercent cfg75.Coverage.Acceptable) = some 75 := by
    have h1 : trimPercent cfg75.Coverage.Acceptable = "75" := by decide
    have h2 : parseFloat "75" = some ((1 : ℚ) * ((75 : ℕ) : ℚ)) := rfl
    rw [h1, h2]
    norm_num
  constructor
  · have h := (accepptable_threshold_check cfg75 70).2.2.1 75 (by decide) hp (by norm_num)
    have hm : belowMsg 70 75 = "code coverage is 70.0%, which is below the accepted 75.0%" := by
      norm_num [belowMsg, fmt1, roundHalfEven]
      rfl
    rw [h, hm]
  · exact (accepptable_threshold_check cfg75 80).2.2.2 75 (by decide) hp (by norm_num)

/-- C3: `BuildDatastoreConfig` checks its invariants in a fixed priority
order and returns a structured error on the first violation: a nil github
section gives the github not-set error; an empty github repository gives
the repository not-set error (whatever the slash count); and a repository
without exactly one slash gives the owner/repo shape error. -/
theorem buildDatastoreConfig_error_order
    (c : Config) (ds : ConfigDatastore) (hds : c.Datastore = some ds) :
    (ds.Github = none →
      c.BuildDatastoreConfig = some (c, some "datastore.github not set")) ∧
    (∀ g, ds.Github = some g → g.Repository = "" →
      Option.map Prod.snd c.BuildDatastoreConfig =
        some (some "datastore.github.repository not set")) ∧
    (∀ g, ds.Github = some g → g.Repository ≠ "" → countSlash g.Repository ≠ 1 →
      Option.map Prod.snd c.BuildDatastoreConfig =
        some (some "datastore.github.repository should be \x27owner/repo\x27")) := by
  refine ⟨?_, ?_, ?_⟩
  · intro hg
    simp [Config.BuildDatastoreConfig, hds, hg]
  · intro g hg hrepo
    rw [buildDatastoreConfig_eq c ds g hds hg]
    simp [hrepo]
  · intro g hg hrepo hcnt
    rw [buildDatastoreConfig_eq c ds g hds hg]
    simp [hrepo, hcnt]

theorem buildDatastoreConfig_error_order_witness :
    (cfgIfEmpty.BuildDatastoreConfig = some (cfgIfEmpty, some "datastore.github not set")) ∧
    Option.map Prod.snd (mkDsCfg "" "").BuildDatastoreConfig =
      some (some "datastore.github.repository not set") ∧
    Option.map Prod.snd (mkDsCfg "" "ownerrepo").BuildDatastoreConfig =
      some (some "datastore.github.repository should be \x27owner/repo\x27") ∧
    Option.map Prod.snd (mkDsCfg "" "a/b/c").BuildDatastoreConfig =
      some (some "datastore.github.repository should be \x27owner/repo\x27") := by
  refine ⟨?_, ?_, ?_, ?_⟩
  · exact (buildDatastoreConfig_error_order cfgIfEmpty ⟨"", none⟩ rfl).1 rfl
  · exact (buildDatastoreConfig_error_order (mkDsCfg "" "") ⟨"", some ⟨"", "", ""⟩⟩ rfl).2.1
      ⟨"", "", ""⟩ rfl rfl
  · exact (buildDatastoreConfig_error_order (mkDsCfg "" "ownerrepo")
      ⟨"", some ⟨"ownerrepo", "", ""⟩⟩ rfl).2.2 ⟨"ownerrepo", "", ""⟩ rfl (by decide) (by decide)
  · exact (buildDatastoreConfig_error_order (mkDsCfg "" "a/b/c")
      ⟨"", some ⟨"a/b/c", "", ""⟩⟩ rfl).2.2 ⟨"a/b/c", "", ""⟩ rfl (by decide) (by decide)

/-- C4: `BuildDatastoreConfig` defaults an empty github branch to main and
an empty github path to reports/(repository)/report.json from the root
repository, but the path default fires only when the root repository is
non-empty; when it is empty the path stays empty and, with a well-formed
github repository, validation fails with the path not-set error. -/
theorem buildDatastoreConfig_defaults
    (c : Config) (ds : ConfigDatastore) (g : ConfigDatastoreGithub)
    (hds : c.Datastore = some ds) (hg : ds.Github = some g) :
    (Option.map Prod.fst c.BuildDatastoreConfig =
      some { c with Datastore := some ⟨ds.If, some ⟨g.Repository,
        (if g.Branch = "" then defaultBranch else g.Branch),
        (if g.Path = "" ∧ c.Repository ≠ "" then
          defaultReportsDir ++ "/" ++ c.Repository ++ "/report.json" else g.Path)⟩⟩ }) ∧
    (c.Repository = "" → g.Path = "" → g.Repository ≠ "" → countSlash g.Repository = 1 →
      Option.map Prod.snd c.BuildDatastoreConfig =
        some (some "datastore.github.path not set")) := by
  constructor
  · rw [buildDatastoreConfig_eq c ds g hds hg]
    simp only [Config.withDatastoreDefaults]
    split_ifs <;> simp
  · intro h1 h2 h3 h4
    rw [buildDatastoreConfig_eq c ds g hds hg]
    by_cases hb : g.Branch = "" <;>
      simp [h1, h2, h3, h4, hb, defaultBranch]

theorem buildDatastoreConfig_defaults_witness :
    Option.map Prod.fst (mkDsCfg "" "owner/repo").BuildDatastoreConfig =
      some { mkDsCfg "" "owner/repo" with
        Datastore := some ⟨"", some ⟨"owner/repo", defaultBranch, ""⟩⟩ } ∧
    Option.map Prod.snd (mkDsCfg "" "owner/repo").BuildDatastoreConfig =
      some (some "datastore.github.path not set") := by
  have h := buildDatastoreConfig_defaults (mkDsCfg "" "owner/repo")
    ⟨"", some ⟨"owner/repo", "", ""⟩⟩ ⟨"owner/repo", "", ""⟩ rfl rfl
  constructor
  · simpa using h.1
  · exact h.2 rfl rfl (by decide) (by decide)

/-- C7: when no explicit path is given and both fixed candidate config
file names exist as regular files under the working directory, `Load`
fails with the duplicate config file error naming both matches; the
ambiguity is never resolved silently by priority order. -/
theorem load_duplicate_config (c : Config) (fs : FS)
    (rp : String → Config → Except String Config)
    (h1 : statIsFile fs (joinPath c.wd ".octocov.yml") = true)
    (h2 : statIsFile fs (joinPath c.wd "octocov.yml") = true) :
    c.Load fs rp "" = .error "duplicate config file [.octocov.yml, octocov.yml]" := by
  simp [Config.Load, loadResolve, DefaultConfigFilePaths, h1, h2]

theorem load_duplicate_config_witness :
    cfgWd.Load fsDup rpId "" = .error "duplicate config file [.octocov.yml, octocov.yml]" :=
  load_duplicate_config cfgWd fsDup rpId (by decide) (by decide)

/-- C8: `Load` defaults the coverage path by two distinct rules: with no
explicit path and no matching candidate it succeeds, `Loaded` is false and
the coverage path becomes the working directory; with a loaded file whose
document left the coverage path empty, the coverage path becomes the
directory containing the resolved config file. -/
theorem load_coverage_path_defaults (c : Config) (fs : FS)
    (rp : String → Config → Except String Config) (pa : String) :
    (c.path = "" →
      statIsFile fs (joinPath c.wd ".octocov.yml") = false →
      statIsFile fs (joinPath c.wd "octocov.yml") = false →
      c.Load fs rp "" = .ok { c with Coverage := { c.Coverage with Path := c.wd } } ∧
      Config.Loaded { c with Coverage := { c.Coverage with Path := c.wd } } = false) ∧
    (∀ c1, pa ≠ "" →
      rp (joinPath c.wd pa) { c with path := joinPath c.wd pa } = .ok c1 →
      c1.Coverage.Path = "" →
      c.Load fs rp pa =
        .ok { c1 with Coverage := { c1.Coverage with Path := dirPath (joinPath c.wd pa) } }) := by
  constructor
  · intro hp h1 h2
    constructor
    · simp [Config.Load, loadResolve, DefaultConfigFilePaths, h1, h2]
    · simp [Config.Loaded, hp]
  · intro c1 hpa hrp hcov
    simp [Config.Load, hpa, hrp, hcov]

theorem load_coverage_path_defaults_witness :
    (cfgWd.Load [] rpId "" = .ok ⟨"", ⟨"wd", ⟨""⟩, ""⟩, none, none, none, "wd", ""⟩ ∧
      Config.Loaded ⟨"", ⟨"wd", ⟨""⟩, ""⟩, none, none, none, "wd", ""⟩ = false) ∧
    cfgWd.Load [] rpId "octocov.yml" =
      .ok ⟨"", ⟨"wd", ⟨""⟩, ""⟩, none, none, none, "wd", "wd/octocov.yml"⟩ := by
  constructor
  · exact (load_coverage_path_defaults cfgWd [] rpId "octocov.yml").1 rfl (by decide) (by decide)
  · exact (load_coverage_path_defaults cfgWd [] rpId "octocov.yml").2
      ⟨"", ⟨"", ⟨""⟩, ""⟩, none, none, none, "wd", "wd/octocov.yml"⟩ (by decide) rfl rfl

/-- C9 counterexample: Build applied twice differs from Build applied
once under a fixed environment snapshot whose values contain dollar
references: with FOO set to the literal text dollar-BAR and BAR set to x,
a config whose repository field is a reference to FOO expands to the
text dollar-BAR after one Build and to x after a second Build. -/
theorem build_not_idempotent :
    Config.Build envCE (Config.Build envCE cfgCE) ≠ Config.Build envCE cfgCE := by
  intro h
  have h2 := congrArg Config.Repository h
  simp [Config.Build, ExpandEnv, expand, getShellName, getenv, envCE, cfgCE,
    isShellSpecialVar, isAlphaNum, braceName] at h2

/-- C9 (amended): Build is an idempotent in-place normalization pass for
every Config under any fixed environment snapshot in which no variable
value contains a dollar character: a second call leaves every field
unchanged.  (Without that restriction a second call can re-expand
references introduced by substituted values, as the counterexample
shows.) -/
theorem build_idempotent_of_dollarFree_env (env : Env) (c : Config)
    (HE : ∀ p ∈ env, '$' ∉ p.2.toList) :
    Config.Build env (Config.Build env c) = Config.Build env c := by
  have hx := ExpandEnv_idem env HE
  have hg := ExpandEnv_getenv env HE
  obtain ⟨crepo, ⟨cvp, ⟨cvb⟩, cva⟩, crat, cds, ccen, cwd, cpath⟩ := c
  by_cases hr : ExpandEnv env crepo = "" <;>
    rcases crat with _ | ⟨rc, rt, ⟨rb⟩⟩ <;>
    rcases cds with _ | ⟨di, _ | ⟨gr, gb, gp⟩⟩ <;>
    rcases ccen with _ | ⟨ce, zr, zb, zo⟩ <;>
    simp [Config.Build, hx, hg, hr]

theorem build_idempotent_of_dollarFree_env_witness :
    Config.Build envW (Config.Build envW cfg0) = Config.Build envW cfg0 :=
  build_idempotent_of_dollarFree_env envW cfg0 (by decide)

/-- C10: `BuildDatastoreConfig` is not atomic on error: when it fails
because the github repository is empty or malformed, the defaults already
applied persist in the returned state — branch has been set to main and
path to the derived default — so the config is observably mutated even
though the call reports an error. -/
theorem buildDatastoreConfig_not_atomic (c : Config) (ds : ConfigDatastore)
    (g : ConfigDatastoreGithub) (hds : c.Datastore = some ds) (hg : ds.Github = some g)
    (hb : g.Branch = "") (hp : g.Path = "") (hrepo : c.Repository ≠ "")
    (hbad : g.Repository = "" ∨ countSlash g.Repository ≠ 1) :
    c.BuildDatastoreConfig =
        some ({ c with Datastore := some ⟨ds.If, some ⟨g.Repository, defaultBranch,
            defaultReportsDir ++ "/" ++ c.Repository ++ "/report.json"⟩⟩ },
          some "datastore.github.repository not set") ∨
    c.BuildDatastoreConfig =
        some ({ c with Datastore := some ⟨ds.If, some ⟨g.Repository, defaultBranch,
            defaultReportsDir ++ "/" ++ c.Repository ++ "/report.json"⟩⟩ },
          some "datastore.github.repository should be \x27owner/repo\x27") := by
  rw [buildDatastoreConfig_eq c ds g hds hg]
  by_cases h1 : g.Repository = ""
  · left
    simp [Config.withDatastoreDefaults, hb, hp, hrepo, h1]
  · right
    have h2 := hbad.resolve_left h1
    simp [Config.withDatastoreDefaults, hb, hp, hrepo, h1, h2]

theorem buildDatastoreConfig_not_atomic_witness :
    (mkDsCfg "owner/repo" "").BuildDatastoreConfig =
        some ({ mkDsCfg "owner/repo" "" with Datastore := some ⟨"", some ⟨"", defaultBranch,
            defaultReportsDir ++ "/" ++ "owner/repo" ++ "/report.json"⟩⟩ },
          some "datastore.github.repository not set") ∨
    (mkDsCfg "owner/repo" "").BuildDatastoreConfig =
        some ({ mkDsCfg "owner/repo" "" with Datastore := some ⟨"", some ⟨"", defaultBranch,
            defaultReportsDir ++ "/" ++ "owner/repo" ++ "/report.json"⟩⟩ },
          some "datastore.github.repository should be \x27owner/repo\x27") :=
  buildDatastoreConfig_not_atomic (mkDsCfg "owner/repo" "") ⟨"", some ⟨"", "", ""⟩⟩
    ⟨"", "", ""⟩ rfl rfl rfl rfl (by decide) (Or.inl rfl)

end Octocov
